import Mathlib

/-!
Verification of `monte_carlo_gain_adjustment.py`.

The two core functions of the repository, `simulate_gain_adjustment` and
`monte_carlo_simulation_preferred_gain`, are embedded shallowly over `ℝ`.
Randomness is modelled by an explicit stream `z : ℕ → ℝ` of standard-normal
variates supplied by the (seeded) random source: `np.random.normal(m, s)`
is the location-scale transform `m + s * z k` of the `k`-th variate, and
`np.random.lognormal(mean := Real.log m, sigma := s)` is
`Real.exp (Real.log m + s * z k)`.  The global NumPy generator is one
sequential stream; `monte_carlo_simulation_preferred_gain` consumes the
first `num_simulations` variates for the log-normal draws and then hands
each simulated user the next `num_adjustments - 1` variates in order.
-/

namespace MonteCarloGain

/-- np.clip(x, lo, hi) : NumPy computes min(hi, max(lo, x)). -/
def npClip (x lo hi : ℝ) : ℝ := min hi (max lo x)

/-- Python `round(num_adjustments * 0.5)` for a natural `num_adjustments`:
`n * 0.5` is exact in binary floating point, and Python rounds exact halves
to the nearest even integer. -/
def pyRoundHalf (n : ℕ) : ℕ :=
  if n % 2 = 0 then n / 2
  else if (n / 2) % 2 = 0 then n / 2 else n / 2 + 1

/-- np.random.normal(mean, sd) as a location-scale transform of a standard
normal variate `v`. -/
def normalDraw (mean sd v : ℝ) : ℝ := mean + sd * v

/-- np.random.lognormal(mean := log m, sigma := s) as exp of a normal draw. -/
noncomputable def lognormalDraw (m sigma v : ℝ) : ℝ :=
  Real.exp (Real.log m + sigma * v)

/-- `direction = 1 if preferred_gain > gain_values[i-1] else -1`
(line 49 of the source). -/
noncomputable def direction (preferred_gain prev : ℝ) : ℝ :=
  if prev < preferred_gain then 1 else -1

/-- The `for i in range(1, num_adjustments)` loop of
`simulate_gain_adjustment` (lines 37-54): `fuel` iterations remain, the
current iteration index is `i`, and `mean_adjustment`, `prev` carry the
mutable loop state (`mean_adjustment` and `gain_values[i-1]`).  Each
iteration first reassigns `mean_adjustment` (halving it when
`i > round(num_adjustments*0.5)`, the threshold `thr`), draws
`adjustment = np.random.normal(mean_adjustment, adjustment_sd)` from the
stream `z`, steps towards the preferred gain and clips into [0, 80]. -/
noncomputable def simLoop (preferred_gain adjustment_sd : ℝ) (thr : ℕ) (z : ℕ → ℝ) :
    ℕ → ℕ → ℝ → ℝ → List ℝ
  | 0, _, _, _ => []
  | fuel + 1, i, mean_adjustment, prev =>
    let mean' := if thr < i then mean_adjustment * 0.5 else mean_adjustment
    let next := npClip (prev + direction preferred_gain prev *
      normalDraw mean' adjustment_sd (z i)) 0 80
    next :: simLoop preferred_gain adjustment_sd thr z fuel (i + 1) mean' next

/-- `simulate_gain_adjustment` (lines 19-56): seed `gain_values[0]` with
`initial_gain` (unclamped) and run the adjustment loop for iterations
`1 .. num_adjustments - 1`.  The draw of iteration `i` consumes variate
`z i` of the stream. -/
noncomputable def simulate_gain_adjustment (initial_gain preferred_gain : ℝ)
    (num_adjustments : ℕ) (mean_adjustment adjustment_sd : ℝ)
    (z : ℕ → ℝ) : List ℝ :=
  initial_gain ::
    simLoop preferred_gain adjustment_sd (pyRoundHalf num_adjustments) z
      (num_adjustments - 1) 1 mean_adjustment initial_gain

/-- Value of the loop variable `mean_adjustment` after the reassignment of
iteration `i` (lines 39-42); `meanAt m thr 0 = m` is the value before the
loop starts. -/
def meanAt (m : ℝ) (thr : ℕ) : ℕ → ℝ
  | 0 => m
  | i + 1 => if thr < i + 1 then meanAt m thr i * 0.5 else meanAt m thr i

/-- `gain_values[i]` as a recurrence: closed-form companion of `simLoop`,
proved equal to it in `simulate_eq_map`. -/
noncomputable def gainAt (initial_gain preferred_gain : ℝ) (thr : ℕ)
    (mean_adjustment adjustment_sd : ℝ) (z : ℕ → ℝ) : ℕ → ℝ
  | 0 => initial_gain
  | i + 1 =>
    let prev := gainAt initial_gain preferred_gain thr mean_adjustment
      adjustment_sd z i
    npClip (prev + direction preferred_gain prev *
      normalDraw (meanAt mean_adjustment thr (i + 1)) adjustment_sd
        (z (i + 1))) 0 80

/-- The clipped per-user preferred gains of
`monte_carlo_simulation_preferred_gain` (lines 79-82): `num_simulations`
log-normal draws, each clipped into [5, 50]. -/
noncomputable def preferredGainsOf (num_simulations : ℕ)
    (preferred_gain_mean preferred_gain_sd : ℝ) (z : ℕ → ℝ) : List ℝ :=
  (List.range num_simulations).map fun k =>
    npClip (lognormalDraw preferred_gain_mean preferred_gain_sd (z k)) 5 50

/-- `monte_carlo_simulation_preferred_gain` (lines 61-91): draw the
preferred gains, then run `simulate_gain_adjustment` once per user, row
`i` consuming the stream variates that follow the log-normal draws and
the rows of all earlier users. -/
noncomputable def monte_carlo_simulation_preferred_gain (num_simulations : ℕ)
    (initial_gain preferred_gain_mean preferred_gain_sd : ℝ)
    (num_adjustments : ℕ) (mean_adjustment adjustment_sd : ℝ)
    (z : ℕ → ℝ) : List (List ℝ) × List ℝ :=
  let preferred_gains :=
    preferredGainsOf num_simulations preferred_gain_mean preferred_gain_sd z
  ((List.range num_simulations).map fun i =>
    simulate_gain_adjustment initial_gain (preferred_gains.getD i 0)
      num_adjustments mean_adjustment adjustment_sd
      (fun k => z (num_simulations + i * (num_adjustments - 1) + (k - 1))),
    preferred_gains)

/-- Errors a call of the two functions can surface.  `indexError` models the
IndexError NumPy raises on `gain_values[0] = initial_gain` when
`np.zeros(num_adjustments)` is empty, and `valueError` models the ValueError
`np.random.normal` raises on a negative scale, carrying the trial index of
the offending draw.  `configurationError` is the eager-validation error the
spec describes; it is part of the type so that the spec's claim can be
stated, and the theorems below show the code never produces it. -/
inductive PyError where
  | configurationError : PyError
  | indexError : PyError
  | valueError : ℕ → PyError

/-- The adjustment loop with NumPy's failure behaviour made explicit: a draw
with negative `adjustment_sd` aborts the run with a ValueError at the
current trial index; otherwise the iteration proceeds as in `simLoop`. -/
noncomputable def simLoopChecked (preferred_gain adjustment_sd : ℝ) (thr : ℕ)
    (z : ℕ → ℝ) : ℕ → ℕ → ℝ → ℝ → Except PyError (List ℝ)
  | 0, _, _, _ => .ok []
  | fuel + 1, i, mean_adjustment, prev =>
    let mean' := if thr < i then mean_adjustment * 0.5 else mean_adjustment
    if adjustment_sd < 0 then .error (.valueError i)
    else
      let next := npClip (prev + direction preferred_gain prev *
        normalDraw mean' adjustment_sd (z i)) 0 80
      match simLoopChecked preferred_gain adjustment_sd thr z fuel (i + 1)
          mean' next with
      | .ok rest => .ok (next :: rest)
      | .error e => .error e

/-- `simulate_gain_adjustment` with its failure points made explicit:
`num_adjustments = 0` makes `gain_values[0] = initial_gain` raise an
IndexError before the loop, and a negative spread raises a ValueError at
the first draw inside the loop. -/
noncomputable def simulate_gain_adjustment_checked (initial_gain preferred_gain : ℝ)
    (num_adjustments : ℕ) (mean_adjustment adjustment_sd : ℝ)
    (z : ℕ → ℝ) : Except PyError (List ℝ) :=
  if num_adjustments = 0 then .error .indexError
  else
    match simLoopChecked preferred_gain adjustment_sd
        (pyRoundHalf num_adjustments) z (num_adjustments - 1) 1
        mean_adjustment initial_gain with
    | .ok rest => .ok (initial_gain :: rest)
    | .error e => .error e

/-! ### Basic lemmas about the loop -/

lemma simLoop_succ (pg sd : ℝ) (thr : ℕ) (z : ℕ → ℝ) (fuel i : ℕ)
    (mean prev : ℝ) :
    simLoop pg sd thr z (fuel + 1) i mean prev
      = npClip (prev + direction pg prev *
            normalDraw (if thr < i then mean * 0.5 else mean) sd (z i)) 0 80
        :: simLoop pg sd thr z fuel (i + 1)
            (if thr < i then mean * 0.5 else mean)
            (npClip (prev + direction pg prev *
              normalDraw (if thr < i then mean * 0.5 else mean) sd (z i))
              0 80) := rfl

lemma simLoop_length (pg sd : ℝ) (thr : ℕ) (z : ℕ → ℝ) :
    ∀ fuel i mean prev, (simLoop pg sd thr z fuel i mean prev).length = fuel := by
  intro fuel
  induction fuel with
  | zero => intro i mean prev; rfl
  | succ f ih => intro i mean prev; rw [simLoop_succ, List.length_cons, ih]

lemma simulate_length (ig pg m sd : ℝ) (n : ℕ) (z : ℕ → ℝ) (hn : 1 ≤ n) :
    (simulate_gain_adjustment ig pg n m sd z).length = n := by
  simp only [simulate_gain_adjustment, List.length_cons, simLoop_length]
  omega

lemma simLoop_eq_map (ig pg m sd : ℝ) (thr : ℕ) (z : ℕ → ℝ) :
    ∀ fuel i, simLoop pg sd thr z fuel (i + 1) (meanAt m thr i)
        (gainAt ig pg thr m sd z i)
      = (List.range fuel).map fun k => gainAt ig pg thr m sd z (i + 1 + k) := by
  intro fuel
  induction fuel with
  | zero => intro i; rfl
  | succ f ih =>
    intro i
    rw [List.range_succ_eq_map, List.map_cons, List.map_map]
    show (gainAt ig pg thr m sd z (i + 1)) ::
        simLoop pg sd thr z f (i + 1 + 1) (meanAt m thr (i + 1))
          (gainAt ig pg thr m sd z (i + 1)) = _
    rw [ih (i + 1)]
    congr 1
    · apply List.map_congr_left
      intro k _
      simp only [Function.comp_apply]
      congr 1
      omega

lemma simulate_eq_map (ig pg m sd : ℝ) (n : ℕ) (z : ℕ → ℝ) (hn : 1 ≤ n) :
    simulate_gain_adjustment ig pg n m sd z
      = (List.range n).map (gainAt ig pg (pyRoundHalf n) m sd z) := by
  obtain ⟨f, rfl⟩ : ∃ f, n = f + 1 := ⟨n - 1, by omega⟩
  unfold simulate_gain_adjustment
  rw [List.range_succ_eq_map, List.map_cons, List.map_map]
  simp only [Nat.add_sub_cancel]
  congr 1
  calc simLoop pg sd (pyRoundHalf (f + 1)) z f 1 m ig
      = simLoop pg sd (pyRoundHalf (f + 1)) z f (0 + 1)
          (meanAt m (pyRoundHalf (f + 1)) 0)
          (gainAt ig pg (pyRoundHalf (f + 1)) m sd z 0) := rfl
    _ = (List.range f).map
          (fun k => gainAt ig pg (pyRoundHalf (f + 1)) m sd z (0 + 1 + k)) :=
        simLoop_eq_map ig pg m sd (pyRoundHalf (f + 1)) z f 0
    _ = (List.range f).map
          ((fun k => gainAt ig pg (pyRoundHalf (f + 1)) m sd z k)
            ∘ Nat.succ) := by
        apply List.map_congr_left
        intro k _
        simp only [Function.comp_apply]
        congr 1
        omega

lemma map_range_getElem? {α : Type} (f : ℕ → α) {n i : ℕ} (h : i < n) :
    ((List.range n).map f)[i]? = some (f i) := by
  simp [List.getElem?_map, List.getElem?_range h]

lemma map_range_getD (f : ℕ → ℝ) {n i : ℕ} (h : i < n) :
    ((List.range n).map f).getD i 0 = f i := by
  simp [List.getD_eq_getElem?_getD, map_range_getElem? f h]

lemma simulate_getD (ig pg m sd : ℝ) {n : ℕ} (z : ℕ → ℝ) {i : ℕ}
    (hi : i < n) :
    (simulate_gain_adjustment ig pg n m sd z).getD i 0
      = gainAt ig pg (pyRoundHalf n) m sd z i := by
  rw [simulate_eq_map ig pg m sd n z (by omega)]
  exact map_range_getD _ hi

lemma gainAt_succ (ig pg m sd : ℝ) (thr : ℕ) (z : ℕ → ℝ) (i : ℕ) :
    gainAt ig pg thr m sd z (i + 1)
      = npClip (gainAt ig pg thr m sd z i
          + direction pg (gainAt ig pg thr m sd z i) *
            normalDraw (meanAt m thr (i + 1)) sd (z (i + 1))) 0 80 := rfl

/-! ### Lemmas about the mean-adjustment reassignment -/

lemma meanAt_of_le (m : ℝ) (thr : ℕ) : ∀ i, i ≤ thr → meanAt m thr i = m := by
  intro i
  induction i with
  | zero => intro _; rfl
  | succ j ih =>
    intro h
    rw [meanAt, if_neg (by omega), ih (by omega)]

lemma meanAt_of_gt (m : ℝ) (thr : ℕ) :
    ∀ i, thr < i → meanAt m thr i = m * 0.5 ^ (i - thr) := by
  intro i
  induction i with
  | zero => intro h; omega
  | succ j ih =>
    intro h
    rw [meanAt, if_pos (by omega)]
    rcases Nat.lt_or_ge thr j with hj | hj
    · rw [ih hj, show j + 1 - thr = (j - thr) + 1 by omega, pow_succ]
      ring
    · have hthr : thr = j := by omega
      rw [hthr, meanAt_of_le m j j le_rfl, show j + 1 - j = 1 by omega,
        pow_one]

/-! ### Lemmas about the clamp -/

lemma npClip_nonneg (x : ℝ) : 0 ≤ npClip x 0 80 :=
  le_min (by norm_num) (le_max_left 0 x)

lemma npClip_le (x : ℝ) : npClip x 0 80 ≤ 80 := min_le_left 80 _

/-! ### Lemmas about the checked model -/

lemma simLoopChecked_succ (pg sd : ℝ) (thr : ℕ) (z : ℕ → ℝ) (fuel i : ℕ)
    (mean prev : ℝ) :
    simLoopChecked pg sd thr z (fuel + 1) i mean prev
      = if sd < 0 then .error (.valueError i)
        else
          match simLoopChecked pg sd thr z fuel (i + 1)
              (if thr < i then mean * 0.5 else mean)
              (npClip (prev + direction pg prev *
                normalDraw (if thr < i then mean * 0.5 else mean) sd (z i))
                0 80) with
          | .ok rest =>
              .ok ((npClip (prev + direction pg prev *
                normalDraw (if thr < i then mean * 0.5 else mean) sd (z i))
                0 80) :: rest)
          | .error e => .error e := rfl

lemma simLoopChecked_of_nonneg (pg sd : ℝ) (thr : ℕ) (z : ℕ → ℝ)
    (hsd : 0 ≤ sd) :
    ∀ fuel i mean prev, simLoopChecked pg sd thr z fuel i mean prev
      = .ok (simLoop pg sd thr z fuel i mean prev) := by
  intro fuel
  induction fuel with
  | zero => intro i mean prev; rfl
  | succ f ih =>
    intro i mean prev
    rw [simLoopChecked_succ, if_neg (not_lt.2 hsd), ih, simLoop_succ]

/-! ### Lemmas about the direction of an update -/

lemma direction_of_lt {pg prev : ℝ} (h : prev < pg) : direction pg prev = 1 :=
  if_pos h

lemma direction_of_not_lt {pg prev : ℝ} (h : ¬ prev < pg) :
    direction pg prev = -1 := if_neg h

/-! ## Claims -/

/-- C1: in `simulate_gain_adjustment`, the effective step-size mean used for
the draw at trial `i` is `meanAt`; past the threshold
`round(trial_count * 0.5)` it is the previous trial's effective mean times
`0.5`, hence `step_mean * 0.5 ^ (i - threshold)`, compounding geometrically,
and at or before the threshold it is the configured `step_mean` unchanged. -/
theorem c1_effective_mean_decay (ig pg m sd : ℝ) (z : ℕ → ℝ) (n i : ℕ)
    (h1 : 1 ≤ i) (hn : i < n) :
    (simulate_gain_adjustment ig pg n m sd z).getD i 0
      = npClip ((simulate_gain_adjustment ig pg n m sd z).getD (i - 1) 0
          + direction pg
              ((simulate_gain_adjustment ig pg n m sd z).getD (i - 1) 0)
            * normalDraw (meanAt m (pyRoundHalf n) i) sd (z i)) 0 80
    ∧ (pyRoundHalf n < i →
        meanAt m (pyRoundHalf n) i = meanAt m (pyRoundHalf n) (i - 1) * 0.5
          ∧ meanAt m (pyRoundHalf n) i = m * 0.5 ^ (i - pyRoundHalf n))
    ∧ (i ≤ pyRoundHalf n → meanAt m (pyRoundHalf n) i = m) := by
  obtain ⟨j, rfl⟩ : ∃ j, i = j + 1 := ⟨i - 1, by omega⟩
  rw [show j + 1 - 1 = j by omega]
  refine ⟨?_, fun hthr => ⟨?_, meanAt_of_gt m _ _ hthr⟩, fun h =>
    meanAt_of_le m _ _ h⟩
  · rw [simulate_getD ig pg m sd z hn,
      simulate_getD ig pg m sd z (show j < n by omega), gainAt_succ]
  · rw [meanAt, if_pos hthr]

/-- Witness for C1 at `n = 5`, `i = 3`: the threshold is
`pyRoundHalf 5 = 2`, so trial 3 is past it and the effective mean is
`4 * 0.5 ^ 1`. -/
theorem c1_effective_mean_decay_witness :
    1 ≤ 3 ∧ 3 < 5
    ∧ ((simulate_gain_adjustment 0 30 5 4 0 (fun _ => 0)).getD 3 0
        = npClip ((simulate_gain_adjustment 0 30 5 4 0 (fun _ => 0)).getD
              (3 - 1) 0
            + direction 30
                ((simulate_gain_adjustment 0 30 5 4 0 (fun _ => 0)).getD
                  (3 - 1) 0)
              * normalDraw (meanAt 4 (pyRoundHalf 5) 3) 0
                  ((fun _ => (0 : ℝ)) 3)) 0 80
        ∧ (pyRoundHalf 5 < 3 →
            meanAt 4 (pyRoundHalf 5) 3 = meanAt 4 (pyRoundHalf 5) (3 - 1) * 0.5
              ∧ meanAt 4 (pyRoundHalf 5) 3 = 4 * 0.5 ^ (3 - pyRoundHalf 5))
        ∧ (3 ≤ pyRoundHalf 5 → meanAt 4 (pyRoundHalf 5) 3 = 4)) :=
  ⟨by norm_num, by norm_num,
    c1_effective_mean_decay 0 30 4 0 (fun _ => 0) 5 3 (by norm_num)
      (by norm_num)⟩

/-- C2 counterexample: the claim asserts every element, including index 0,
lies in the clamp interval [0, 80]; but the seed value is never clamped, so
`initial_gain = 100` (with `target = 30`, `trial_count = 1`,
`step_mean = 4`, `spread = 1 ≥ 0`) puts 100 at index 0. -/
theorem c2_clamp_counterexample :
    ¬ (∀ x ∈ simulate_gain_adjustment 100 30 1 4 1 (fun _ => 0),
        0 ≤ x ∧ x ≤ 80) := by
  intro h
  have hx : (100 : ℝ) ∈ simulate_gain_adjustment 100 30 1 4 1 (fun _ => 0) := by
    norm_num [simulate_gain_adjustment, simLoop]
  have := h 100 hx
  norm_num at this

/-- C2 amended: for every call with `trial_count ≥ 1`, every element at
index `i ≥ 1` of the returned trajectory lies in [0, 80]; the element at
index 0 equals the unclamped seed, so the whole trajectory lies in [0, 80]
whenever the initial gain itself does. -/
theorem c2_clamp_amended (ig pg m sd : ℝ) (n : ℕ) (z : ℕ → ℝ) (hn : 1 ≤ n) :
    (∀ i x, 1 ≤ i →
        (simulate_gain_adjustment ig pg n m sd z)[i]? = some x →
        0 ≤ x ∧ x ≤ 80)
    ∧ (0 ≤ ig → ig ≤ 80 →
        ∀ x ∈ simulate_gain_adjustment ig pg n m sd z, 0 ≤ x ∧ x ≤ 80) := by
  constructor
  · intro i x h1 hsome
    have hi : i < n := by
      by_contra hge
      rw [simulate_eq_map ig pg m sd n z hn, List.getElem?_eq_none
        (by simpa using by omega : ((List.range n).map _).length ≤ i)]
          at hsome
      exact Option.noConfusion hsome
    rw [simulate_eq_map ig pg m sd n z hn, map_range_getElem? _ hi] at hsome
    obtain rfl : gainAt ig pg (pyRoundHalf n) m sd z i = x :=
      Option.some.inj hsome
    obtain ⟨j, rfl⟩ : ∃ j, i = j + 1 := ⟨i - 1, by omega⟩
    rw [gainAt_succ]
    exact ⟨npClip_nonneg _, npClip_le _⟩
  · intro h0 h80 x hx
    rw [simulate_eq_map ig pg m sd n z hn] at hx
    obtain ⟨k, hk, rfl⟩ := List.mem_map.1 hx
    cases k with
    | zero => exact ⟨h0, h80⟩
    | succ j => rw [gainAt_succ]; exact ⟨npClip_nonneg _, npClip_le _⟩

/-- Witness for the amended C2 at a concrete call with the seed 100 outside
the clamp interval. -/
theorem c2_clamp_amended_witness :
    1 ≤ 2
    ∧ ((∀ i x, 1 ≤ i →
          (simulate_gain_adjustment 100 30 2 4 1 (fun _ => 0))[i]? = some x →
          0 ≤ x ∧ x ≤ 80)
        ∧ (0 ≤ (100 : ℝ) → (100 : ℝ) ≤ 80 →
            ∀ x ∈ simulate_gain_adjustment 100 30 2 4 1 (fun _ => 0),
              0 ≤ x ∧ x ≤ 80)) :=
  ⟨by norm_num, c2_clamp_amended 100 30 4 1 2 (fun _ => 0) (by norm_num)⟩

/-- C3 counterexample: with `initial_gain = 0`, `target = 30`,
`trial_count = 5`, `step_mean = 4`, `step_spread = 0`, the code does not
return [0, 4, 8, 12, 16]: the threshold `round(5 * 0.5) = 2` (Python
rounds the exact half 2.5 to the even integer 2), so the mean is halved at
trials 3 and 4 and the trajectory is [0, 4, 8, 10, 11]. -/
theorem c3_deterministic_counterexample :
    simulate_gain_adjustment 0 30 5 4 0 (fun _ => 0)
      ≠ [0, 4, 8, 12, 16] := by
  have h : simulate_gain_adjustment 0 30 5 4 0 (fun _ => 0)
      = [0, 4, 8, 10, 11] := by
    norm_num [simulate_gain_adjustment, simLoop, pyRoundHalf, npClip,
      direction, normalDraw]
  rw [h]
  intro heq
  have := List.cons.inj heq
  norm_num at this

/-- C3 amended: for that input the returned trajectory is
[0, 4, 8, 10, 11], for every variate stream (zero spread removes the
randomness): direction is always +1, but the drawn magnitude decays to 2
at trial 3 and to 1 at trial 4. -/
theorem c3_deterministic_amended (z : ℕ → ℝ) :
    simulate_gain_adjustment 0 30 5 4 0 z = [0, 4, 8, 10, 11] := by
  norm_num [simulate_gain_adjustment, simLoop, pyRoundHalf, npClip,
    direction, normalDraw]

/-- Witness for the amended C3 at the all-zeros variate stream. -/
theorem c3_deterministic_amended_witness :
    simulate_gain_adjustment 0 30 5 4 0 (fun _ => 0) = [0, 4, 8, 10, 11] :=
  c3_deterministic_amended (fun _ => 0)

/-- C4: at every trial the direction is +1 if the target strictly exceeds
the previous trajectory value and -1 otherwise; when the target equals the
previous value the direction is -1 and the update subtracts the drawn
magnitude. -/
theorem c4_direction_tie_break (ig pg m sd : ℝ) (z : ℕ → ℝ) (n i : ℕ)
    (h1 : 1 ≤ i) (hn : i < n) :
    (simulate_gain_adjustment ig pg n m sd z).getD i 0
      = npClip ((simulate_gain_adjustment ig pg n m sd z).getD (i - 1) 0
          + direction pg
              ((simulate_gain_adjustment ig pg n m sd z).getD (i - 1) 0)
            * normalDraw (meanAt m (pyRoundHalf n) i) sd (z i)) 0 80
    ∧ (pg > (simulate_gain_adjustment ig pg n m sd z).getD (i - 1) 0 →
        direction pg ((simulate_gain_adjustment ig pg n m sd z).getD (i - 1) 0)
          = 1)
    ∧ (¬ pg > (simulate_gain_adjustment ig pg n m sd z).getD (i - 1) 0 →
        direction pg ((simulate_gain_adjustment ig pg n m sd z).getD (i - 1) 0)
          = -1)
    ∧ (pg = (simulate_gain_adjustment ig pg n m sd z).getD (i - 1) 0 →
        (simulate_gain_adjustment ig pg n m sd z).getD i 0
          = npClip ((simulate_gain_adjustment ig pg n m sd z).getD (i - 1) 0
              - normalDraw (meanAt m (pyRoundHalf n) i) sd (z i)) 0 80) := by
  obtain ⟨j, rfl⟩ : ∃ j, i = j + 1 := ⟨i - 1, by omega⟩
  rw [show j + 1 - 1 = j by omega]
  have hstep : (simulate_gain_adjustment ig pg n m sd z).getD (j + 1) 0
      = npClip ((simulate_gain_adjustment ig pg n m sd z).getD j 0
          + direction pg ((simulate_gain_adjustment ig pg n m sd z).getD j 0)
            * normalDraw (meanAt m (pyRoundHalf n) (j + 1)) sd (z (j + 1)))
          0 80 := by
    rw [simulate_getD ig pg m sd z hn,
      simulate_getD ig pg m sd z (show j < n by omega), gainAt_succ]
  refine ⟨hstep, fun hlt => direction_of_lt hlt, fun hge =>
    direction_of_not_lt hge, fun heq => ?_⟩
  rw [hstep, direction_of_not_lt (heq ▸ lt_irrefl pg), neg_one_mul,
    ← sub_eq_add_neg]

/-- Witness for C4 at a tie: `initial_gain = 10 = target`, so the first
update moves in the negative direction. -/
theorem c4_direction_tie_break_witness :
    1 ≤ 1 ∧ 1 < 2
    ∧ ((simulate_gain_adjustment 10 10 2 4 0 (fun _ => 0)).getD 1 0
        = npClip ((simulate_gain_adjustment 10 10 2 4 0 (fun _ => 0)).getD
              (1 - 1) 0
            + direction 10
                ((simulate_gain_adjustment 10 10 2 4 0 (fun _ => 0)).getD
                  (1 - 1) 0)
              * normalDraw (meanAt 4 (pyRoundHalf 2) 1) 0
                  ((fun _ => (0 : ℝ)) 1)) 0 80
        ∧ ((10 : ℝ) > (simulate_gain_adjustment 10 10 2 4 0
              (fun _ => 0)).getD (1 - 1) 0 →
            direction 10 ((simulate_gain_adjustment 10 10 2 4 0
              (fun _ => 0)).getD (1 - 1) 0) = 1)
        ∧ (¬ (10 : ℝ) > (simulate_gain_adjustment 10 10 2 4 0
              (fun _ => 0)).getD (1 - 1) 0 →
            direction 10 ((simulate_gain_adjustment 10 10 2 4 0
              (fun _ => 0)).getD (1 - 1) 0) = -1)
        ∧ ((10 : ℝ) = (simulate_gain_adjustment 10 10 2 4 0
              (fun _ => 0)).getD (1 - 1) 0 →
            (simulate_gain_adjustment 10 10 2 4 0 (fun _ => 0)).getD 1 0
              = npClip ((simulate_gain_adjustment 10 10 2 4 0
                  (fun _ => 0)).getD (1 - 1) 0
                - normalDraw (meanAt 4 (pyRoundHalf 2) 1) 0
                    ((fun _ => (0 : ℝ)) 1)) 0 80)) :=
  ⟨by norm_num, by norm_num,
    c4_direction_tie_break 10 10 4 0 (fun _ => 0) 2 1 (by norm_num)
      (by norm_num)⟩

/-- C5: for `trial_count ≥ 1` the element at index 0 of the returned
trajectory is exactly the given initial gain, with no clamping applied to
the seed. -/
theorem c5_seed_exact (ig pg m sd : ℝ) (n : ℕ) (z : ℕ → ℝ) (hn : 1 ≤ n) :
    (simulate_gain_adjustment ig pg n m sd z)[0]? = some ig := by
  rw [simulate_gain_adjustment, List.getElem?_cons_zero]

/-- Witness for C5 with a seed of 100, outside the clamp interval. -/
theorem c5_seed_exact_witness :
    1 ≤ 1
    ∧ (simulate_gain_adjustment 100 30 1 4 1 (fun _ => 0))[0]? = some 100 :=
  ⟨by norm_num, c5_seed_exact 100 30 4 1 1 (fun _ => 0) (by norm_num)⟩

/-- C6: `monte_carlo_simulation_preferred_gain` is a deterministic function
of the random source and the parameters: for any seeded source `g`
(mapping a seed to the stream of standard-normal variates it produces),
two invocations with equal seeds and identical parameters return identical
ensembles and preferred-gain vectors. -/
theorem c6_reproducibility (g : ℕ → ℕ → ℝ) (s₁ s₂ : ℕ) (N : ℕ)
    (ig pm psd : ℝ) (n : ℕ) (m sd : ℝ) (h : s₁ = s₂) :
    monte_carlo_simulation_preferred_gain N ig pm psd n m sd (g s₁)
      = monte_carlo_simulation_preferred_gain N ig pm psd n m sd (g s₂) := by
  rw [h]

/-- Witness for C6 at a concrete seeded source and equal seeds. -/
theorem c6_reproducibility_witness :
    0 = 0
    ∧ monte_carlo_simulation_preferred_gain 2 0 20 0.3 3 4 1
          ((fun _ _ => (0 : ℝ)) 0)
        = monte_carlo_simulation_preferred_gain 2 0 20 0.3 3 4 1
            ((fun _ _ => (0 : ℝ)) 0) :=
  ⟨rfl, c6_reproducibility (fun _ _ => 0) 0 0 2 0 20 0.3 3 4 1 rfl⟩

/-- C7: for every population size `N` and `trial_count ≥ 1`, the ensemble
has exactly `N` rows, each of length `trial_count`, and the preferred-gain
vector has exactly `N` elements. -/
theorem c7_ensemble_shape (N : ℕ) (ig pm psd : ℝ) (n : ℕ) (m sd : ℝ)
    (z : ℕ → ℝ) (hn : 1 ≤ n) :
    (monte_carlo_simulation_preferred_gain N ig pm psd n m sd z).1.length = N
    ∧ (∀ row ∈ (monte_carlo_simulation_preferred_gain N ig pm psd n m sd z).1,
        row.length = n)
    ∧ (monte_carlo_simulation_preferred_gain N ig pm psd n m sd z).2.length
        = N := by
  refine ⟨?_, ?_, ?_⟩
  · simp [monte_carlo_simulation_preferred_gain]
  · intro row hrow
    simp only [monte_carlo_simulation_preferred_gain] at hrow
    obtain ⟨u, hu, rfl⟩ := List.mem_map.1 hrow
    exact simulate_length _ _ _ _ _ _ hn
  · simp [monte_carlo_simulation_preferred_gain, preferredGainsOf]

/-- Witness for C7 at `N = 2`, `trial_count = 3`. -/
theorem c7_ensemble_shape_witness :
    1 ≤ 3
    ∧ ((monte_carlo_simulation_preferred_gain 2 0 20 0.3 3 4 1
          (fun _ => 0)).1.length = 2
        ∧ (∀ row ∈ (monte_carlo_simulation_preferred_gain 2 0 20 0.3 3 4 1
              (fun _ => 0)).1, row.length = 3)
        ∧ (monte_carlo_simulation_preferred_gain 2 0 20 0.3 3 4 1
            (fun _ => 0)).2.length = 2) :=
  ⟨by norm_num,
    c7_ensemble_shape 2 0 20 0.3 3 4 1 (fun _ => 0) (by norm_num)⟩

/-- C8: the per-user targets are drawn as
`exp(Normal(log preferred_gain_mean, preferred_gain_sd))` and every drawn
sample is clamped into [5, 50]; consequently every element of the returned
preferred-gain vector lies within [5, 50]. -/
theorem c8_lognormal_clamped (N : ℕ) (ig pm psd : ℝ) (n : ℕ) (m sd : ℝ)
    (z : ℕ → ℝ) :
    (monte_carlo_simulation_preferred_gain N ig pm psd n m sd z).2
      = (List.range N).map
          (fun k => npClip (lognormalDraw pm psd (z k)) 5 50)
    ∧ ∀ x ∈ (monte_carlo_simulation_preferred_gain N ig pm psd n m sd z).2,
        5 ≤ x ∧ x ≤ 50 := by
  refine ⟨rfl, ?_⟩
  intro x hx
  rw [show (monte_carlo_simulation_preferred_gain N ig pm psd n m sd z).2
      = (List.range N).map
          (fun k => npClip (lognormalDraw pm psd (z k)) 5 50) from rfl] at hx
  obtain ⟨k, hk, rfl⟩ := List.mem_map.1 hx
  exact ⟨le_min (by norm_num) (le_max_left 5 _), min_le_left 50 _⟩

/-- C9 counterexample: with a negative spread (an invalid configuration),
the run is not aborted eagerly with a ConfigurationError: it enters the
trial loop and aborts with a ValueError at the first draw, at trial
index 1. -/
theorem c9_validation_counterexample :
    simulate_gain_adjustment_checked 0 30 5 4 (-1) (fun _ => 0)
      = .error (.valueError 1)
    ∧ (Except.error (PyError.valueError 1) : Except PyError (List ℝ))
        ≠ .error .configurationError := by
  constructor
  · norm_num [simulate_gain_adjustment_checked, simLoopChecked, pyRoundHalf]
  · simp

/-- C9 amended: the code performs no eager validation and never produces a
ConfigurationError; invalid parameters fail (or not) only at their point
of use: `trial_count = 0` aborts with an IndexError when seeding the
trajectory, a negative spread aborts with a ValueError at the first in-loop
draw when `trial_count ≥ 2` yet succeeds when `trial_count = 1`, and any
run with `spread ≥ 0` and `trial_count ≥ 1` returns the full trajectory. -/
theorem c9_no_eager_validation_amended (ig pg m sd : ℝ) (z : ℕ → ℝ)
    (n : ℕ) :
    (n = 0 →
        simulate_gain_adjustment_checked ig pg n m sd z
          = .error .indexError)
    ∧ (sd < 0 → 2 ≤ n →
        simulate_gain_adjustment_checked ig pg n m sd z
          = .error (.valueError 1))
    ∧ (sd < 0 → n = 1 →
        simulate_gain_adjustment_checked ig pg n m sd z = .ok [ig])
    ∧ (0 ≤ sd → 1 ≤ n →
        simulate_gain_adjustment_checked ig pg n m sd z
          = .ok (simulate_gain_adjustment ig pg n m sd z)) := by
  refine ⟨?_, ?_, ?_, ?_⟩
  · intro h
    simp only [simulate_gain_adjustment_checked, if_pos h]
  · intro hsd hn
    simp only [simulate_gain_adjustment_checked,
      if_neg (show ¬ n = 0 by omega)]
    obtain ⟨f, hf⟩ : ∃ f, n - 1 = f + 1 := ⟨n - 2, by omega⟩
    rw [hf, simLoopChecked_succ, if_pos hsd]
  · intro hsd hn
    subst hn
    simp only [simulate_gain_adjustment_checked,
      if_neg (show ¬ (1 : ℕ) = 0 by omega)]
    rfl
  · intro hsd hn
    simp only [simulate_gain_adjustment_checked,
      if_neg (show ¬ n = 0 by omega),
      simLoopChecked_of_nonneg pg sd (pyRoundHalf n) z hsd]
    rfl

/-- Witness for the amended C9: the negative-spread case at
`trial_count = 5`. -/
theorem c9_no_eager_validation_witness :
    (-1 : ℝ) < 0 ∧ 2 ≤ 5
    ∧ simulate_gain_adjustment_checked 0 30 5 4 (-1) (fun _ => 0)
        = .error (.valueError 1) :=
  ⟨by norm_num, by norm_num,
    (c9_no_eager_validation_amended 0 30 4 (-1) (fun _ => 0) 5).2.1
      (by norm_num) (by norm_num)⟩

/-- C10: the in-place reduction of `mean_adjustment` inside one user's
trajectory generation does not leak into later users: every row `i` of the
ensemble is exactly a call of `simulate_gain_adjustment` with the original
configured `mean_adjustment` (and that user's own target and slice of the
variate stream). -/
theorem c10_mean_not_leaked (N : ℕ) (ig pm psd : ℝ) (n : ℕ) (m sd : ℝ)
    (z : ℕ → ℝ) (i : ℕ) (hi : i < N) :
    (monte_carlo_simulation_preferred_gain N ig pm psd n m sd z).1[i]?
      = some (simulate_gain_adjustment ig
          ((monte_carlo_simulation_preferred_gain N ig pm psd n m sd
            z).2.getD i 0)
          n m sd (fun k => z (N + i * (n - 1) + (k - 1)))) := by
  have hfst : (monte_carlo_simulation_preferred_gain N ig pm psd n m sd z).1
      = (List.range N).map (fun u => simulate_gain_adjustment ig
          ((preferredGainsOf N pm psd z).getD u 0) n m sd
          (fun k => z (N + u * (n - 1) + (k - 1)))) := rfl
  rw [hfst, map_range_getElem? _ hi]
  rfl

/-- Witness for C10 at user index 0 of a one-user population. -/
theorem c10_mean_not_leaked_witness :
    0 < 1
    ∧ (monte_carlo_simulation_preferred_gain 1 0 20 0.3 2 4 1
          (fun _ => 0)).1[0]?
        = some (simulate_gain_adjustment 0
            ((monte_carlo_simulation_preferred_gain 1 0 20 0.3 2 4 1
              (fun _ => 0)).2.getD 0 0)
            2 4 1 (fun k => (fun _ => (0 : ℝ)) (1 + 0 * (2 - 1) + (k - 1)))) :=
  ⟨by norm_num,
    c10_mean_not_leaked 1 0 20 0.3 2 4 1 (fun _ => 0) 0 (by norm_num)⟩

end MonteCarloGain
